import Mathlib

/-!
# Verification of the Pointless multiplayer server (`src/server.js`)

This file is a shallow embedding, in Lean 4, of the game logic of the
Pointless multiplayer WebSocket server (`src/server.js`) together with the
answer normalizer of the single-device client (`src/js/game.js`).

Modelling conventions:

* JavaScript strings are modelled as lists of Unicode code points
  (`JStr := List Nat`).  `toLowerCase` is modelled faithfully on the
  ASCII and Latin-1 ranges (the ranges exercised by the packs and by the
  spec's examples) and is the identity elsewhere; `normalize('NFD')` is
  modelled by a code-point-wise decomposition table covering the
  precomposed Latin-1 letters, and is the identity elsewhere.
* JavaScript regular-expression character class `\s` is modelled by the
  exact ECMAScript WhiteSpace/LineTerminator set.
* Player ids are modelled as `Nat`: the server only ever compares ids
  for equality.
* `Map` iteration order (insertion order) is modelled by keeping players
  in a `List`; in-place mutation of one player is modelled by mapping an
  id-guarded update over that list (faithful because `Map` keys are
  unique).
* `Array.prototype.sort(cmp)` with a two-key comparator is, per the
  ECMAScript spec, a stable sort; it is modelled with
  `List.insertionSort`, which is stable and kernel-computable.
* The recursive turn-skipping of `startPlayerTurn` and the `while` loop
  of `nextPlayer` are modelled with an explicit fuel parameter; the
  public wrappers supply fuel strictly larger than the number of seats,
  which the loops can never exhaust (each step consumes one seat).
* Timer handles are modelled by a single `Bool` (`turnTimer` armed or
  not); `clearTurnTimer` sets it to `false`.  Real time, `setTimeout`
  callbacks and socket I/O are outside the model; the events a handler
  broadcasts are returned as an explicit `List Event`.
-/

/-- A JavaScript string, as its list of Unicode code points. -/
abbrev JStr := List Nat

/-! ## The answer normalizers (`normalizeAnswer` in `src/server.js` and `src/js/game.js`) -/

/-- `String.prototype.toLowerCase`, faithful on ASCII `A`-`Z` and on the
Latin-1 uppercase letters `À` (192) - `Þ` (222) except `×` (215); identity
on all other code points (the packs and the spec's examples stay in this
range). -/
def jsToLower (c : Nat) : Nat :=
  if 65 ≤ c ∧ c ≤ 90 then c + 32
  else if 192 ≤ c ∧ c ≤ 222 ∧ c ≠ 215 then c + 32
  else c

/-- Canonical decomposition (NFD) table for the precomposed Latin-1
lowercase letters: each maps to its base letter followed by a combining
mark in U+0300-U+036F.  (Uppercase Latin-1 letters have already been
lowered by `jsToLower` when `normalize('NFD')` runs.) -/
def nfdTable : List (Nat × List Nat) :=
  [(224, [97, 768]), (225, [97, 769]), (226, [97, 770]), (227, [97, 771]),
   (228, [97, 776]), (229, [97, 778]), (231, [99, 807]),
   (232, [101, 768]), (233, [101, 769]), (234, [101, 770]), (235, [101, 776]),
   (236, [105, 768]), (237, [105, 769]), (238, [105, 770]), (239, [105, 776]),
   (241, [110, 771]),
   (242, [111, 768]), (243, [111, 769]), (244, [111, 770]), (245, [111, 771]), (246, [111, 776]),
   (249, [117, 768]), (250, [117, 769]), (251, [117, 770]), (252, [117, 776]),
   (253, [121, 769]), (255, [121, 776])]

/-- First-match lookup in a decomposition table. -/
def lookupDecomp : List (Nat × List Nat) → Nat → Option (List Nat)
  | [], _ => none
  | (k, v) :: rest, c => if c = k then some v else lookupDecomp rest c

/-- `String.prototype.normalize('NFD')`, code-point-wise: decompose the
precomposed letters of `nfdTable`, identity elsewhere. -/
def nfdChar (c : Nat) : List Nat :=
  match lookupDecomp nfdTable c with
  | some d => d
  | none => [c]

/-- The regex class `[̀-ͯ]` (combining diacritical marks). -/
def isCombiningMark (c : Nat) : Bool :=
  decide (768 ≤ c ∧ c ≤ 879)

/-- The ECMAScript regex class `\s`: WhiteSpace and LineTerminator code
points. -/
def isJsWhitespace (c : Nat) : Bool :=
  decide (c = 9 ∨ c = 10 ∨ c = 11 ∨ c = 12 ∨ c = 13 ∨ c = 32 ∨ c = 160 ∨ c = 5760 ∨
    (8192 ≤ c ∧ c ≤ 8202) ∨ c = 8232 ∨ c = 8233 ∨ c = 8239 ∨ c = 8287 ∨ c = 12288 ∨ c = 65279)

/-- Membership in the regex class `[a-z0-9\s]` (the complement of what
`replace(/[^a-z0-9\s]/g, …)` rewrites). -/
def keepChar (c : Nat) : Bool :=
  decide ((97 ≤ c ∧ c ≤ 122) ∨ (48 ≤ c ∧ c ≤ 57)) || isJsWhitespace c

/-- A character that survives normalization other than as a space:
a lowercase ASCII letter or an ASCII digit. -/
def isNormChar (c : Nat) : Bool :=
  decide ((97 ≤ c ∧ c ≤ 122) ∨ (48 ≤ c ∧ c ≤ 57))

/-- Worker for `replace(/\s+/g, ' ')`: `inWs` records whether we are in
the middle of a whitespace run whose single replacement space has
already been emitted. -/
def collapseWsAux : Bool → List Nat → List Nat
  | _, [] => []
  | inWs, c :: cs =>
    if isJsWhitespace c then
      if inWs then collapseWsAux true cs else 32 :: collapseWsAux true cs
    else c :: collapseWsAux false cs

/-- `replace(/\s+/g, ' ')`: every maximal whitespace run becomes one space. -/
def collapseWs (l : List Nat) : List Nat :=
  collapseWsAux false l

/-- Remove the trailing whitespace run (the `trimEnd` half of
`String.prototype.trim`). -/
def trimRight : List Nat → List Nat
  | [] => []
  | c :: cs =>
    let r := trimRight cs
    if r.isEmpty && isJsWhitespace c then [] else c :: r

/-- `String.prototype.trim`: drop the leading and the trailing
whitespace run. -/
def trimWs (l : List Nat) : List Nat :=
  trimRight (l.dropWhile isJsWhitespace)

namespace Server

/-- `normalizeAnswer` from `src/server.js` (lines 26-34): lower-case,
NFD-decompose, strip combining marks, delete every character outside
`[a-z0-9\s]`, collapse whitespace runs to single spaces, trim. -/
def normalizeAnswer (l : JStr) : JStr :=
  trimWs (collapseWs (List.filter keepChar
    (List.filter (fun c => !isCombiningMark c) ((l.map jsToLower).flatMap nfdChar))))

end Server

namespace GameJs

/-- `&` textualized to `" and "` (`replace(/&/g, ' and ')` in
`src/js/game.js`), code-point-wise. -/
def ampersandToAnd (c : Nat) : List Nat :=
  if c = 38 then [32, 97, 110, 100, 32] else [c]

/-- `replace(/[^a-z0-9\s]/g, ' ')`: punctuation becomes a space (the
richer client variant), code-point-wise. -/
def punctToSpace (c : Nat) : Nat :=
  if keepChar c then c else 32

/-- `normalizeAnswer` from `src/js/game.js` (lines 504-513): like the
server variant, but `&` becomes `" and "` and punctuation is replaced
by a space rather than deleted. -/
def normalizeAnswer (l : JStr) : JStr :=
  trimWs (collapseWs (List.map punctToSpace
    ((List.filter (fun c => !isCombiningMark c) ((l.map jsToLower).flatMap nfdChar)).flatMap
      ampersandToAnd)))

end GameJs

/-- "Côte d'Ivoire" as code points. -/
def exCoteDIvoire : JStr := [67, 244, 116, 101, 32, 100, 39, 73, 118, 111, 105, 114, 101]

/-- "cote d ivoire" as code points. -/
def exCoteSpaced : JStr := [99, 111, 116, 101, 32, 100, 32, 105, 118, 111, 105, 114, 101]

/-- "COTE-D'IVOIRE" as code points. -/
def exCoteUpper : JStr := [67, 79, 84, 69, 45, 68, 39, 73, 86, 79, 73, 82, 69]

example : Server.normalizeAnswer exCoteDIvoire =
    [99, 111, 116, 101, 32, 100, 105, 118, 111, 105, 114, 101] := by decide

example : Server.normalizeAnswer exCoteSpaced = exCoteSpaced := by decide

example : Server.normalizeAnswer exCoteUpper =
    [99, 111, 116, 101, 100, 105, 118, 111, 105, 114, 101] := by decide

example : GameJs.normalizeAnswer exCoteDIvoire = exCoteSpaced := by decide

example : GameJs.normalizeAnswer exCoteUpper = exCoteSpaced := by decide

/-! ## Structure of normalized strings: whitespace is single spaces -/

/-- The head, if any, is not whitespace. -/
def headOkWs : List Nat → Bool
  | [] => true
  | c :: _ => !isJsWhitespace c

/-- Every whitespace character is a plain space (32) and is not followed
by another whitespace character. -/
def wsOk : List Nat → Bool
  | [] => true
  | c :: cs => (!isJsWhitespace c || (c == 32 && headOkWs cs)) && wsOk cs

theorem headOkWs_collapseWsAux_true (m : List Nat) :
    headOkWs (collapseWsAux true m) = true := by
  induction m with
  | nil => rfl
  | cons c cs ih =>
    simp only [collapseWsAux]
    by_cases h : isJsWhitespace c = true
    · simpa [h] using ih
    · simp [h, headOkWs, Bool.eq_false_iff.mpr h]

theorem wsOk_collapseWsAux (m : List Nat) : ∀ b, wsOk (collapseWsAux b m) = true := by
  induction m with
  | nil => intro b; rfl
  | cons c cs ih =>
    intro b
    simp only [collapseWsAux]
    by_cases h : isJsWhitespace c = true
    · cases b with
      | true => simpa [h] using ih true
      | false =>
        simp only [h, if_true, if_false, Bool.false_eq_true]
        simp [wsOk, headOkWs_collapseWsAux_true, ih true]
    · simp [h, wsOk, ih false]

theorem wsOk_collapseWs (m : List Nat) : wsOk (collapseWs m) = true :=
  wsOk_collapseWsAux m false

theorem wsOk_tail {c : Nat} {cs : List Nat} (h : wsOk (c :: cs) = true) : wsOk cs = true := by
  simp only [wsOk, Bool.and_eq_true] at h
  exact h.2

theorem collapseWsAux_of_headOk {m : List Nat} (h : headOkWs m = true) :
    ∀ b, collapseWsAux b m = collapseWsAux false m := by
  intro b
  cases m with
  | nil => rfl
  | cons c cs =>
    simp only [headOkWs, Bool.not_eq_true'] at h
    simp [collapseWsAux, h]

/-- `collapseWs` is the identity on lists whose whitespace is already
collapsed. -/
theorem collapseWs_eq_self {m : List Nat} (h : wsOk m = true) : collapseWs m = m := by
  induction m with
  | nil => rfl
  | cons c cs ih =>
    simp only [wsOk, Bool.and_eq_true] at h
    obtain ⟨h1, h2⟩ := h
    unfold collapseWs at ih ⊢
    by_cases hws : isJsWhitespace c = true
    · have h32 : c = 32 ∧ headOkWs cs = true := by
        rcases Bool.or_eq_true_iff.mp h1 with h | h
        · simp [hws] at h
        · simp only [Bool.and_eq_true, beq_iff_eq] at h
          exact h
      obtain ⟨hc32, hhead⟩ := h32
      have hstep : collapseWsAux false (c :: cs) = 32 :: collapseWsAux true cs := by
        simp [collapseWsAux, hws]
      rw [hstep, collapseWsAux_of_headOk hhead true, ih h2, hc32]
    · have hstep : collapseWsAux false (c :: cs) = c :: collapseWsAux false cs := by
        simp [collapseWsAux, hws]
      rw [hstep, ih h2]

theorem wsOk_dropWhile (m : List Nat) (h : wsOk m = true) :
    wsOk (m.dropWhile isJsWhitespace) = true := by
  induction m with
  | nil => exact h
  | cons c cs ih =>
    by_cases hws : isJsWhitespace c = true
    · simp only [List.dropWhile_cons, hws, if_true]
      exact ih (wsOk_tail h)
    · simpa [List.dropWhile_cons, hws] using h

/-- A nonempty `trimRight` keeps the head of its argument. -/
theorem trimRight_cons_of_ne_nil {c : Nat} {cs : List Nat}
    (h : trimRight (c :: cs) ≠ []) : trimRight (c :: cs) = c :: trimRight cs := by
  by_cases hc : (trimRight cs).isEmpty && isJsWhitespace c
  · exact absurd (by simp [trimRight, hc]) h
  · simp [trimRight, hc]

theorem headOkWs_trimRight (m : List Nat) (h : headOkWs m = true) :
    headOkWs (trimRight m) = true := by
  cases m with
  | nil => exact h
  | cons c cs =>
    by_cases hnil : trimRight (c :: cs) = []
    · simp [hnil, headOkWs]
    · rw [trimRight_cons_of_ne_nil hnil]
      exact h

theorem wsOk_trimRight (m : List Nat) (h : wsOk m = true) :
    wsOk (trimRight m) = true := by
  induction m with
  | nil => exact h
  | cons c cs ih =>
    simp only [wsOk, Bool.and_eq_true] at h
    obtain ⟨h1, h2⟩ := h
    by_cases hnil : trimRight (c :: cs) = []
    · simp [hnil, wsOk]
    · rw [trimRight_cons_of_ne_nil hnil]
      simp only [wsOk, Bool.and_eq_true]
      refine ⟨?_, ih h2⟩
      rcases Bool.or_eq_true_iff.mp h1 with hl | hr
      · simp [hl]
      · simp only [Bool.and_eq_true, beq_iff_eq] at hr
        apply Bool.or_eq_true_iff.mpr
        right
        simp only [Bool.and_eq_true, beq_iff_eq]
        refine ⟨hr.1, ?_⟩
        cases cs with
        | nil => simp [trimRight, headOkWs]
        | cons d ds =>
          by_cases hnil2 : trimRight (d :: ds) = []
          · simp [hnil2, headOkWs]
          · rw [trimRight_cons_of_ne_nil hnil2]
            exact hr.2

theorem trimRight_idem (m : List Nat) : trimRight (trimRight m) = trimRight m := by
  induction m with
  | nil => rfl
  | cons c cs ih =>
    by_cases hc : ((trimRight cs).isEmpty && isJsWhitespace c) = true
    · simp [trimRight, hc]
    · have hstep : trimRight (c :: cs) = c :: trimRight cs := by
        simp only [trimRight]
        rw [if_neg hc]
      rw [hstep]
      have hcond : ¬(((trimRight (trimRight cs)).isEmpty && isJsWhitespace c) = true) := by
        rw [ih]; exact hc
      simp only [trimRight]
      rw [if_neg hcond, ih]

theorem dropWhile_eq_self_of_headOk {m : List Nat} (h : headOkWs m = true) :
    m.dropWhile isJsWhitespace = m := by
  cases m with
  | nil => rfl
  | cons c cs =>
    simp only [headOkWs, Bool.not_eq_true'] at h
    simp [List.dropWhile_cons, h]

theorem headOkWs_dropWhile (m : List Nat) :
    headOkWs (m.dropWhile isJsWhitespace) = true := by
  induction m with
  | nil => rfl
  | cons c cs ih =>
    by_cases hws : isJsWhitespace c = true
    · simpa [List.dropWhile_cons, hws] using ih
    · simp [List.dropWhile_cons, hws, headOkWs]

theorem trimWs_idem (m : List Nat) : trimWs (trimWs m) = trimWs m := by
  unfold trimWs
  rw [dropWhile_eq_self_of_headOk
        (headOkWs_trimRight _ (headOkWs_dropWhile m)),
      trimRight_idem]

theorem wsOk_trimWs (m : List Nat) (h : wsOk m = true) : wsOk (trimWs m) = true :=
  wsOk_trimRight _ (wsOk_dropWhile m h)

/-- The collapse-then-trim tail of both normalizers is idempotent. -/
theorem trimWs_collapseWs_idem (m : List Nat) :
    trimWs (collapseWs (trimWs (collapseWs m))) = trimWs (collapseWs m) := by
  rw [collapseWs_eq_self (wsOk_trimWs _ (wsOk_collapseWs m)), trimWs_idem]

/-! ## Characters surviving normalization, and idempotence -/

theorem mem_collapseWsAux {c : Nat} :
    ∀ (b : Bool) (m : List Nat), c ∈ collapseWsAux b m →
      c = 32 ∨ (c ∈ m ∧ isJsWhitespace c = false) := by
  intro b m
  induction m generalizing b with
  | nil => intro h; cases h
  | cons d ds ih =>
    intro h
    by_cases hws : isJsWhitespace d = true
    · cases b with
      | true =>
        simp only [collapseWsAux, hws, if_true] at h
        rcases ih true h with h32 | ⟨hm, hn⟩
        · exact Or.inl h32
        · exact Or.inr ⟨List.mem_cons_of_mem _ hm, hn⟩
      | false =>
        simp only [collapseWsAux, hws, if_true] at h
        rcases List.mem_cons.mp h with rfl | h'
        · exact Or.inl rfl
        · rcases ih true h' with h32 | ⟨hm, hn⟩
          · exact Or.inl h32
          · exact Or.inr ⟨List.mem_cons_of_mem _ hm, hn⟩
    · simp only [collapseWsAux, hws, Bool.false_eq_true, if_false] at h
      rcases List.mem_cons.mp h with rfl | h'
      · exact Or.inr ⟨List.mem_cons_self _ _, Bool.eq_false_iff.mpr hws⟩
      · rcases ih false h' with h32 | ⟨hm, hn⟩
        · exact Or.inl h32
        · exact Or.inr ⟨List.mem_cons_of_mem _ hm, hn⟩

theorem mem_trimRight {c : Nat} : ∀ m : List Nat, c ∈ trimRight m → c ∈ m := by
  intro m
  induction m with
  | nil => intro h; cases h
  | cons d ds ih =>
    intro h
    by_cases hcond : ((trimRight ds).isEmpty && isJsWhitespace d) = true
    · simp only [trimRight, hcond, if_true] at h
      cases h
    · simp only [trimRight, hcond, Bool.false_eq_true, if_false] at h
      rcases List.mem_cons.mp h with rfl | h'
      · exact List.mem_cons_self _ _
      · exact List.mem_cons_of_mem _ (ih h')

theorem mem_trimWs {c : Nat} {m : List Nat} (h : c ∈ trimWs m) : c ∈ m :=
  (List.dropWhile_sublist isJsWhitespace).mem (mem_trimRight _ h)

theorem isNormChar_spec {c : Nat} (h : isNormChar c = true) :
    (97 ≤ c ∧ c ≤ 122) ∨ (48 ≤ c ∧ c ≤ 57) := by
  simpa [isNormChar] using h

theorem ws_of_not_normChar_keep {c : Nat} (h : keepChar c = true) :
    isNormChar c = true ∨ isJsWhitespace c = true := by
  rcases Bool.or_eq_true_iff.mp h with h' | h'
  · exact Or.inl h'
  · exact Or.inr h'

theorem not_ws_of_normChar {c : Nat} (h : isNormChar c = true) :
    isJsWhitespace c = false := by
  have h' := isNormChar_spec h
  simp only [isJsWhitespace, decide_eq_false_iff_not]
  omega

theorem jsToLower_fix {c : Nat} (h : isNormChar c = true ∨ c = 32) : jsToLower c = c := by
  have h' : (97 ≤ c ∧ c ≤ 122) ∨ (48 ≤ c ∧ c ≤ 57) ∨ c = 32 := by
    rcases h with h | h
    · rcases isNormChar_spec h with h | h
      exacts [Or.inl h, Or.inr (Or.inl h)]
    · exact Or.inr (Or.inr h)
  unfold jsToLower
  rw [if_neg (by omega), if_neg (by omega)]

theorem lookupDecomp_eq_none {t : List (Nat × List Nat)} {c : Nat}
    (hkeys : ∀ kv ∈ t, 192 ≤ kv.1) (hc : c < 192) : lookupDecomp t c = none := by
  induction t with
  | nil => rfl
  | cons kv rest ih =>
    obtain ⟨k, v⟩ := kv
    have hk : 192 ≤ k := hkeys (k, v) (List.mem_cons_self _ _)
    simp only [lookupDecomp]
    rw [if_neg (by omega)]
    exact ih fun kv hm => hkeys kv (List.mem_cons_of_mem _ hm)

theorem nfdTable_keys : ∀ kv ∈ nfdTable, 192 ≤ kv.1 := by decide

theorem nfdChar_fix {c : Nat} (h : isNormChar c = true ∨ c = 32) : nfdChar c = [c] := by
  have hc : c < 192 := by
    rcases h with h | h
    · rcases isNormChar_spec h with h | h <;> omega
    · omega
  unfold nfdChar
  rw [lookupDecomp_eq_none nfdTable_keys hc]

theorem isCombiningMark_fix {c : Nat} (h : isNormChar c = true ∨ c = 32) :
    isCombiningMark c = false := by
  have hc : c < 192 := by
    rcases h with h | h
    · rcases isNormChar_spec h with h | h <;> omega
    · omega
  simp only [isCombiningMark, decide_eq_false_iff_not]
  omega

theorem keepChar_fix {c : Nat} (h : isNormChar c = true ∨ c = 32) : keepChar c = true := by
  rcases h with h | h
  · unfold keepChar
    unfold isNormChar at h
    rw [h, Bool.true_or]
  · subst h; decide

theorem flatMap_id_of {l : List Nat} {g : Nat → List Nat} (h : ∀ c ∈ l, g c = [c]) :
    l.flatMap g = l := by
  induction l with
  | nil => rfl
  | cons c cs ih =>
    rw [List.flatMap_cons, h c (List.mem_cons_self c cs),
       ih fun d hd => h d (List.mem_cons_of_mem _ hd)]
    rfl

theorem map_id_of {l : List Nat} {f : Nat → Nat} (h : ∀ c ∈ l, f c = c) : l.map f = l := by
  induction l with
  | nil => rfl
  | cons c cs ih =>
    rw [List.map_cons, h c (List.mem_cons_self c cs),
       ih fun d hd => h d (List.mem_cons_of_mem _ hd)]

theorem mem_normResult {c : Nat} {m : List Nat}
    (hm : ∀ d ∈ m, isNormChar d = true ∨ isJsWhitespace d = true)
    (hc : c ∈ trimWs (collapseWs m)) : isNormChar c = true ∨ c = 32 := by
  rcases mem_collapseWsAux false m (mem_trimWs hc) with h32 | ⟨hmem, hnws⟩
  · exact Or.inr h32
  · rcases hm c hmem with h | h
    · exact Or.inl h
    · rw [h] at hnws; cases hnws

namespace Server

theorem stripChain_fix {l : JStr} (h : ∀ c ∈ l, isNormChar c = true ∨ c = 32) :
    List.filter keepChar
      (List.filter (fun c => !isCombiningMark c) ((l.map jsToLower).flatMap nfdChar)) = l := by
  rw [map_id_of fun c hc => jsToLower_fix (h c hc),
     flatMap_id_of fun c hc => nfdChar_fix (h c hc)]
  have hin : List.filter (fun c => !isCombiningMark c) l = l :=
    List.filter_eq_self.mpr fun c hc => by rw [isCombiningMark_fix (h c hc)]; rfl
  rw [hin]
  exact List.filter_eq_self.mpr fun c hc => keepChar_fix (h c hc)

theorem serverNormalize_chars (l : JStr) :
    ∀ c ∈ normalizeAnswer l, isNormChar c = true ∨ c = 32 := by
  intro c hc
  simp only [normalizeAnswer] at hc
  refine mem_normResult ?_ hc
  intro d hd
  exact ws_of_not_normChar_keep (List.mem_filter.mp hd).2

/-- The server's `normalizeAnswer` is idempotent. -/
theorem serverNormalize_idem (l : JStr) :
    normalizeAnswer (normalizeAnswer l) = normalizeAnswer l := by
  nth_rewrite 1 [normalizeAnswer]
  rw [stripChain_fix (serverNormalize_chars l)]
  simp only [normalizeAnswer]
  exact trimWs_collapseWs_idem _

end Server

namespace GameJs

theorem ampersandToAnd_fix {c : Nat} (h : isNormChar c = true ∨ c = 32) :
    ampersandToAnd c = [c] := by
  have hc : c ≠ 38 := by
    rcases h with h | h
    · rcases isNormChar_spec h with h | h <;> omega
    · omega
  simp [ampersandToAnd, hc]

theorem punctToSpace_fix {c : Nat} (h : isNormChar c = true ∨ c = 32) :
    punctToSpace c = c := by
  simp [punctToSpace, keepChar_fix h]

theorem gameChain_fix {l : JStr} (h : ∀ c ∈ l, isNormChar c = true ∨ c = 32) :
    List.map punctToSpace
      ((List.filter (fun c => !isCombiningMark c)
          ((l.map jsToLower).flatMap nfdChar)).flatMap ampersandToAnd) = l := by
  rw [map_id_of fun c hc => jsToLower_fix (h c hc),
     flatMap_id_of fun c hc => nfdChar_fix (h c hc)]
  have hin : List.filter (fun c => !isCombiningMark c) l = l :=
    List.filter_eq_self.mpr fun c hc => by rw [isCombiningMark_fix (h c hc)]; rfl
  rw [hin, flatMap_id_of fun c hc => ampersandToAnd_fix (h c hc)]
  exact map_id_of fun c hc => punctToSpace_fix (h c hc)

theorem gameNormalize_chars (l : JStr) :
    ∀ c ∈ normalizeAnswer l, isNormChar c = true ∨ c = 32 := by
  intro c hc
  simp only [normalizeAnswer] at hc
  refine mem_normResult ?_ hc
  intro d hd
  rcases List.mem_map.mp hd with ⟨e, _, rfl⟩
  by_cases hk : keepChar e = true
  · rw [show punctToSpace e = e from by simp [punctToSpace, hk]]
    exact ws_of_not_normChar_keep hk
  · rw [show punctToSpace e = 32 from by simp [punctToSpace, hk]]
    right; decide

/-- The client's `normalizeAnswer` is idempotent. -/
theorem gameNormalize_idem (l : JStr) :
    normalizeAnswer (normalizeAnswer l) = normalizeAnswer l := by
  nth_rewrite 1 [normalizeAnswer]
  rw [gameChain_fix (gameNormalize_chars l)]
  simp only [normalizeAnswer]
  exact trimWs_collapseWs_idem _

end GameJs

/-! ## The room state machine (`src/server.js`) -/

namespace Server

/-- "PASS" as code points. -/
def strPASS : JStr := [80, 65, 83, 83]

/-- Game mode setting (`'party' | 'tv-show'`). -/
inductive GameMode where
  | party
  | tvShow
deriving DecidableEq, Repr

/-- Game phase (`'lobby' | 'playing' | 'revealing' | 'roundEnd' | 'gameOver'`). -/
inductive Phase where
  | lobby
  | playing
  | revealing
  | roundEnd
  | gameOver
deriving DecidableEq, Repr

/-- Room settings (`createInitialState`, merged by `CREATE_GAME`). -/
structure Settings where
  totalRounds : Nat
  timerEnabled : Bool
  timerDuration : Nat
  gameMode : GameMode
deriving DecidableEq, Repr

/-- A pack answer.  The source reads `answer.text || answer.answer` for
the display text and `answer.score || answer.points || 0` for the point
value; both field-name variants collapse to one field here. -/
structure Answer where
  text : JStr
  points : Int
  aliases : List JStr
deriving DecidableEq, Repr

/-- A pack category.  `prompt`/`question`/`name` are the duck-typed
field variants read by `getClientState`; `ctype` models `type` and
`translations` is opaque pass-through data. -/
structure Category where
  prompt : Option JStr
  question : Option JStr
  name : Option JStr
  ctype : Option JStr
  translations : Option JStr
  answers : List Answer
deriving DecidableEq, Repr

/-- A pack (`state.pack`): `title`/`name` duck-typed title plus the
category list. -/
structure Pack where
  title : Option JStr
  name : Option JStr
  categories : List Category
deriving DecidableEq, Repr

/-- A player record (fields of the object built on player join). -/
structure Player where
  id : Nat
  name : JStr
  score : Int
  roundScores : List Int
  eliminated : Bool
  eliminatedRound : Option Nat
  connected : Bool
  language : JStr
  typing : Bool
  submittedAnswer : Option JStr
deriving DecidableEq, Repr

/-- One entry of `state.answerBoardEntries`. -/
structure BoardEntry where
  playerId : Nat
  playerName : JStr
  answer : JStr
  score : Int
  isCorrect : Bool
deriving DecidableEq, Repr

/-- The per-room game state (`createInitialState`).  `players` keeps the
`Map`'s insertion order; `usedAnswersThisRound` keeps the `Set`'s
insertion order (only membership is ever queried). -/
structure GameState where
  code : JStr
  phase : Phase
  hostId : Option Nat
  players : List Player
  playerOrder : List Nat
  settings : Settings
  pack : Option Pack
  currentRound : Nat
  currentPlayerIndex : Nat
  currentCategory : Option Category
  roundCategories : List Category
  usedAnswersThisRound : List JStr
  answerBoardEntries : List BoardEntry
  timerRemaining : Option Nat
  jackpot : Int
deriving DecidableEq, Repr

/-- A room: game state plus the turn-timer handle, modelled as an
armed/disarmed flag (`room.turnTimer !== null`). -/
structure Room where
  state : GameState
  turnTimer : Bool
deriving DecidableEq, Repr

/-- The client-safe player view built by `toClientPlayer`. -/
structure ClientPlayer where
  id : Nat
  name : JStr
  score : Int
  roundScores : List Int
  eliminated : Bool
  connected : Bool
  language : JStr
  typing : Bool
  hasSubmitted : Bool
deriving DecidableEq, Repr

/-- The client-safe category view inside `getClientState`. -/
structure ClientCategory where
  prompt : Option JStr
  question : Option JStr
  ctype : Option JStr
  translations : Option JStr
deriving DecidableEq, Repr

/-- The full `STATE_SYNC` snapshot built by `getClientState`. -/
structure ClientState where
  code : JStr
  phase : Phase
  players : List ClientPlayer
  playerOrder : List Nat
  settings : Settings
  packTitle : Option JStr
  currentRound : Nat
  totalRounds : Nat
  currentPlayerIndex : Nat
  currentPlayerId : Option Nat
  currentCategory : Option ClientCategory
  answerBoardEntries : List BoardEntry
  timerRemaining : Option Nat
  jackpot : Int
deriving DecidableEq, Repr

/-- The events a handler broadcasts (dedicated messages only; the
full-state rebroadcast `broadcastState` appears as `stateSync`). -/
inductive Event where
  | stateSync
  | turnStart (playerId : Nat) (timerDuration : Option Nat)
  | scoreReveal (playerId : Nat) (answer : JStr) (score : Int) (isCorrect : Bool)
      (isPointless : Bool)
  | roundEndEv (standings : List ClientPlayer) (eliminatedPlayerId : Option Nat)
  | gameEnd (winner : Option ClientPlayer) (standings : List ClientPlayer)
  | playerTypingEv (playerId : Nat) (isTyping : Bool)
  | playerLeft (playerId : Nat)
deriving DecidableEq, Repr

/-- `getCurrentPlayerId` (lines 102-107). -/
def getCurrentPlayerId (s : GameState) : Option Nat :=
  if s.playerOrder.length ≤ s.currentPlayerIndex then none
  else s.playerOrder[s.currentPlayerIndex]?

/-- `toClientPlayer` (lines 62-75). -/
def toClientPlayer (p : Player) : ClientPlayer :=
  { id := p.id, name := p.name, score := p.score, roundScores := p.roundScores,
    eliminated := p.eliminated, connected := p.connected, language := p.language,
    typing := p.typing, hasSubmitted := p.submittedAnswer.isSome }

/-- JavaScript `a || b` on possibly-missing strings: an empty string is
falsy. -/
def jsOrStr (a b : Option JStr) : Option JStr :=
  match a with
  | some s => if s.isEmpty then b else some s
  | none => b

/-- The client-safe category view built inline by `getClientState`:
prompt (with the `prompt || question || name` duck-typing), question,
type and translations — the answer list is not copied. -/
def toClientCategory (c : Category) : ClientCategory :=
  { prompt := jsOrStr c.prompt (jsOrStr c.question c.name),
    question := c.question, ctype := c.ctype, translations := c.translations }

/-- `state.pack?.title || state.pack?.name || null`. -/
def packTitleOf (o : Option Pack) : Option JStr :=
  match o with
  | some pk => jsOrStr pk.title pk.name
  | none => none

/-- `getClientState` (lines 78-100): the client-safe snapshot.  Category
answer lists and point values are not copied. -/
def getClientState (s : GameState) : ClientState :=
  { code := s.code,
    phase := s.phase,
    players := s.players.map toClientPlayer,
    playerOrder := s.playerOrder,
    settings := s.settings,
    packTitle := packTitleOf s.pack,
    currentRound := s.currentRound,
    totalRounds := s.settings.totalRounds,
    currentPlayerIndex := s.currentPlayerIndex,
    currentPlayerId := getCurrentPlayerId s,
    currentCategory := s.currentCategory.map toClientCategory,
    answerBoardEntries := s.answerBoardEntries,
    timerRemaining := s.timerRemaining,
    jackpot := s.jackpot }

/-- Does an answer match a normalized input, by its text or one of its
aliases (`findAnswer`'s per-answer check, text first)? -/
def matchesAnswer (key : JStr) (a : Answer) : Bool :=
  normalizeAnswer a.text == key || a.aliases.any fun al => normalizeAnswer al == key

/-- `findAnswer` (lines 141-158): first answer of the current category
whose text or alias normalizes to the input key; returns its display
text and point value. -/
def findAnswer (s : GameState) (normalizedInput : JStr) : Option (JStr × Int) :=
  match s.currentCategory with
  | none => none
  | some cat => (cat.answers.find? (matchesAnswer normalizedInput)).map fun a =>
      (a.text, a.points)

/-- `player.roundScores[currentRound - 1] || 0`, including the
`currentRound = 0` corner where JavaScript reads index `-1`
(`undefined`, hence `0`). -/
def roundScoreAt (p : Player) (round : Nat) : Int :=
  if round = 0 then 0 else p.roundScores.getD (round - 1) 0

/-- The sparse-array update `roundScores[currentRound - 1] += score`
(with the `|| 0` initialisation of a missing or falsy slot); a no-op on
the array when `currentRound = 0` (JavaScript then writes the
non-element property `-1`, which the array view never shows). -/
def bumpRoundScore (rs : List Int) (round : Nat) (sc : Int) : List Int :=
  if round = 0 then rs
  else
    let i := round - 1
    let padded := rs ++ List.replicate (i + 1 - rs.length) 0
    padded.set i (padded.getD i 0 + sc)

/-- The score-resolution cascade of `handleAnswerSubmission`
(lines 283-310): returns `(score, isCorrect, displayAnswer, isPointless,
usedAnswersThisRound', jackpot')`.  A missing or empty answer is a pass
(the `answer || 'PASS'` and `if (answer)` falsy checks). -/
def resolveSubmission (s : GameState) (answer : Option JStr) :
    Int × Bool × JStr × Bool × List JStr × Int :=
  match answer with
  | none => (100, false, strPASS, false, s.usedAnswersThisRound, s.jackpot)
  | some a =>
    if a.isEmpty then (100, false, strPASS, false, s.usedAnswersThisRound, s.jackpot)
    else
      let key := normalizeAnswer a
      if key ∈ s.usedAnswersThisRound then
        (100, false, a, false, s.usedAnswersThisRound, s.jackpot)
      else
        match findAnswer s key with
        | some m =>
          (m.2, true, m.1, m.2 = 0, s.usedAnswersThisRound ++ [key],
           s.jackpot + if m.2 = 0 then 250 else 0)
        | none => (100, false, a, false, s.usedAnswersThisRound, s.jackpot)

/-- `handleAnswerSubmission` (lines 269-342).  Clears the turn timer,
silently drops out-of-turn submissions, resolves the answer, updates the
submitter's scores and the board, emits `SCORE_REVEAL`, and enters
`revealing`. -/
def handleAnswerSubmission (room : Room) (playerId : Nat) (answer : Option JStr) :
    Room × List Event :=
  let s := room.state
  let room0 : Room := { room with turnTimer := false }
  if getCurrentPlayerId s = some playerId then
    match s.players.find? (fun q => q.id == playerId) with
    | none => (room0, [])
    | some player =>
      let r := resolveSubmission s answer
      let score := r.1
      let isCorrect := r.2.1
      let displayAnswer := r.2.2.1
      let isPointless := r.2.2.2.1
      let used' := r.2.2.2.2.1
      let jackpot' := r.2.2.2.2.2
      let s' : GameState :=
        { s with
          players := s.players.map fun q =>
            if q.id == playerId then
              { q with typing := false,
                       score := q.score + score,
                       roundScores := bumpRoundScore q.roundScores s.currentRound score,
                       submittedAnswer := some displayAnswer }
            else q,
          usedAnswersThisRound := used',
          jackpot := jackpot',
          answerBoardEntries := s.answerBoardEntries ++
            [{ playerId := playerId, playerName := player.name, answer := displayAnswer,
               score := score, isCorrect := isCorrect }],
          phase := Phase.revealing }
      ({ room0 with state := s' },
       [Event.scoreReveal playerId displayAnswer score isCorrect isPointless,
        Event.stateSync])
  else (room0, [])

/-- The comparator `(a, b) => a.score - b.score` of `endRound`/`endGame`
(ascending cumulative score). -/
def byScoreAsc (a b : ClientPlayer) : Prop := a.score ≤ b.score

instance : DecidableRel byScoreAsc := fun a b =>
  inferInstanceAs (Decidable (a.score ≤ b.score))

instance : IsTotal ClientPlayer byScoreAsc :=
  ⟨fun a b => Int.le_total a.score b.score⟩

instance : IsTrans ClientPlayer byScoreAsc :=
  ⟨fun _ _ _ hab hbc => le_trans hab hbc⟩

/-- The comparator `(a, b) => b.roundScore - a.roundScore` of the
tv-show elimination (descending round score). -/
def byRoundScoreDesc (a b : Player × Int) : Prop := b.2 ≤ a.2

instance : DecidableRel byRoundScoreDesc := fun a b =>
  inferInstanceAs (Decidable (b.2 ≤ a.2))

instance : IsTotal (Player × Int) byRoundScoreDesc :=
  ⟨fun a b => Int.le_total b.2 a.2⟩

instance : IsTrans (Player × Int) byRoundScoreDesc :=
  ⟨fun _ _ _ hab hbc => le_trans hbc hab⟩

/-- `endRound` (lines 366-398): enter `roundEnd`, compute standings of
the non-eliminated players (ascending cumulative score, stable), in
tv-show mode with more than one active player eliminate the highest
round scorer, and emit `ROUND_END`. -/
def endRound (room : Room) : Room × List Event :=
  let s : GameState := { room.state with phase := Phase.roundEnd }
  let active := s.players.filter fun p => !p.eliminated
  let standings := List.insertionSort byScoreAsc (active.map toClientPlayer)
  if s.settings.gameMode = GameMode.tvShow ∧ 1 < active.length then
    let ranked := List.insertionSort byRoundScoreDesc
      (active.map fun p => (p, roundScoreAt p s.currentRound))
    match ranked.head? with
    | some top =>
      let s' := { s with players := s.players.map fun q =>
          if q.id == top.1.id then
            { q with eliminated := true, eliminatedRound := some s.currentRound }
          else q }
      ({ room with state := s' },
       [Event.roundEndEv standings (some top.1.id), Event.stateSync])
    | none =>
      ({ room with state := s }, [Event.roundEndEv standings none, Event.stateSync])
  else
    ({ room with state := s }, [Event.roundEndEv standings none, Event.stateSync])

/-- Fueled worker for `startPlayerTurn` (lines 221-266): clear the turn
timer, skip eliminated or disconnected players (ending the round when
the index runs off the order), otherwise reset the player's turn flags,
announce `TURN_START`, rebroadcast state, and arm the timer if enabled.
One unit of fuel is spent per skipped seat; callers supply more fuel
than there are seats, so the fuel never runs out. -/
def startPlayerTurnGo : Nat → Room → Room × List Event
  | 0, room => ({ room with turnTimer := false }, [])
  | fuel + 1, room =>
    let s := room.state
    let room0 : Room := { room with turnTimer := false }
    match getCurrentPlayerId s with
    | none => (room0, [])
    | some pid =>
      match s.players.find? (fun q => q.id == pid) with
      | none => (room0, [])
      | some player =>
        if player.eliminated || !player.connected then
          if s.currentPlayerIndex + 1 < s.playerOrder.length then
            startPlayerTurnGo fuel
              { room0 with state := { s with currentPlayerIndex := s.currentPlayerIndex + 1 } }
          else
            endRound
              { room0 with state := { s with currentPlayerIndex := s.currentPlayerIndex + 1 } }
        else
          let players' := s.players.map fun q =>
            if q.id == pid then { q with typing := false, submittedAnswer := none } else q
          let timerDuration : Option Nat :=
            if s.settings.timerEnabled then some s.settings.timerDuration else none
          let armed : Bool :=
            match timerDuration with
            | some d => d != 0
            | none => false
          ({ state := { s with players := players' }, turnTimer := armed },
           [Event.turnStart pid timerDuration, Event.stateSync])

/-- `startPlayerTurn` with enough fuel for every seat. -/
def startPlayerTurn (room : Room) : Room × List Event :=
  startPlayerTurnGo (room.state.playerOrder.length + 1) room

/-- `startRound` (lines 195-210): install the round's category, clear
the used-answer set and the board, reset the player index and per-turn
player flags, rebroadcast, and start the first turn.  The
`currentRound = 0` guard mirrors JavaScript's out-of-bounds read
`roundCategories[-1]` (`undefined`). -/
def startRound (room : Room) : Room × List Event :=
  let s := room.state
  let s' : GameState :=
    { s with
      currentCategory := if s.currentRound = 0 then none
        else s.roundCategories[s.currentRound - 1]?,
      usedAnswersThisRound := [],
      answerBoardEntries := [],
      currentPlayerIndex := 0,
      players := s.players.map fun p => { p with typing := false, submittedAnswer := none } }
  let r := startPlayerTurn { room with state := s' }
  (r.1, Event.stateSync :: r.2)

/-- `startGame` (lines 161-192).  The `sort(() => Math.random() - 0.5)`
shuffle is modelled by the explicit `shuffled` argument; theorems about
`startGame` assume `shuffled` is a permutation of the pack's
categories, which is all the shuffle guarantees. -/
def startGame (room : Room) (shuffled : List Category) : Room × List Event :=
  let s := room.state
  match s.pack with
  | none => (room, [])
  | some pack =>
    if pack.categories.isEmpty then (room, [])
    else
      let totalRounds :=
        if pack.categories.length < s.settings.totalRounds then pack.categories.length
        else s.settings.totalRounds
      let s' : GameState :=
        { s with
          settings := { s.settings with totalRounds := totalRounds },
          roundCategories := shuffled.take totalRounds,
          phase := Phase.playing,
          currentRound := 1,
          currentPlayerIndex := 0,
          jackpot := 1000,
          players := s.players.map fun p =>
            { p with score := 0, roundScores := [], eliminated := false,
                     eliminatedRound := none } }
      startRound { room with state := s' }

/-- Fueled worker for the `while` loop of `nextPlayer` (lines 350-356):
advance the index past eliminated players. -/
def skipEliminatedGo : Nat → GameState → GameState
  | 0, s => s
  | fuel + 1, s =>
    if s.currentPlayerIndex < s.playerOrder.length then
      match s.playerOrder[s.currentPlayerIndex]? with
      | some pid =>
        match s.players.find? (fun q => q.id == pid) with
        | some q =>
          if q.eliminated then
            skipEliminatedGo fuel { s with currentPlayerIndex := s.currentPlayerIndex + 1 }
          else s
        | none => s
      | none => s
    else s

/-- The eliminated-player skip of `nextPlayer`, with enough fuel for
every seat. -/
def skipEliminated (s : GameState) : GameState :=
  skipEliminatedGo (s.playerOrder.length + 1) s

/-- `nextPlayer` (lines 345-363): host advance; re-enter `playing`,
move to the next non-eliminated seat, or end the round. -/
def nextPlayer (room : Room) : Room × List Event :=
  let s := skipEliminated
    { room.state with
      phase := Phase.playing,
      currentPlayerIndex := room.state.currentPlayerIndex + 1 }
  if s.playerOrder.length ≤ s.currentPlayerIndex then endRound { room with state := s }
  else startPlayerTurn { room with state := s }

/-- The final standings of `endGame`: all players (eliminated included)
sorted ascending by cumulative score, stable. -/
def finalStandings (s : GameState) : List ClientPlayer :=
  List.insertionSort byScoreAsc (s.players.map toClientPlayer)

/-- `endGame` (lines 414-431): enter `gameOver`, sort all players
ascending by cumulative score, declare `allPlayers[0]` the winner, emit
`GAME_END`. -/
def endGame (room : Room) : Room × List Event :=
  let s : GameState := { room.state with phase := Phase.gameOver }
  let standings := finalStandings s
  ({ room with state := s }, [Event.gameEnd standings.head? standings, Event.stateSync])

/-- `nextRound` (lines 401-411): end the game when the round budget is
spent or at most one active player remains, else start the next round. -/
def nextRound (room : Room) : Room × List Event :=
  let s := room.state
  let active := s.players.filter fun p => !p.eliminated
  if s.settings.totalRounds ≤ s.currentRound ∨ active.length ≤ 1 then endGame room
  else startRound { room with state := { s with currentRound := s.currentRound + 1 } }

/-- The inbound client messages of the `ws.on('message')` dispatch
(lines 560-637).  `CREATE_GAME`'s settings merge is modelled as a full
replacement (every settings field present), and `START_GAME` carries
the shuffle permutation used by `startGame`. -/
inductive ClientMsg where
  | createGame (pack : Option Pack) (settings : Settings)
  | startGameMsg (shuffled : List Category)
  | joinGame (name language : JStr)
  | submitAnswer (answer : Option JStr)
  | typingMsg (isTyping : Bool)
  | passMsg
  | nextPlayerMsg
  | nextRoundMsg
  | setLanguage (language : JStr)
  | kickPlayer (playerId : Nat)

/-- The `ws.on('message')` dispatch (lines 560-637), with
`isHost := ws.playerId === room.state.hostId`. -/
def dispatch (room : Room) (senderId : Nat) (msg : ClientMsg) : Room × List Event :=
  match msg with
  | ClientMsg.createGame pack settings =>
    if room.state.hostId = some senderId then
      ({ room with state := { room.state with pack := pack, settings := settings } },
       [Event.stateSync])
    else (room, [])
  | ClientMsg.startGameMsg shuffled =>
    if room.state.hostId = some senderId ∧ room.state.phase = Phase.lobby ∧
        1 ≤ room.state.players.length then
      startGame room shuffled
    else (room, [])
  | ClientMsg.joinGame name language =>
    match room.state.players.find? (fun q => q.id == senderId) with
    | some _ =>
      ({ room with state := { room.state with players := room.state.players.map fun q =>
          if q.id == senderId then { q with name := name, language := language } else q } },
       [Event.stateSync])
    | none => (room, [])
  | ClientMsg.submitAnswer answer => handleAnswerSubmission room senderId answer
  | ClientMsg.typingMsg isTyping =>
    match room.state.players.find? (fun q => q.id == senderId) with
    | some _ =>
      ({ room with state := { room.state with players := room.state.players.map fun q =>
          if q.id == senderId then { q with typing := isTyping } else q } },
       [Event.playerTypingEv senderId isTyping])
    | none => (room, [])
  | ClientMsg.passMsg => handleAnswerSubmission room senderId none
  | ClientMsg.nextPlayerMsg =>
    if room.state.hostId = some senderId then nextPlayer room else (room, [])
  | ClientMsg.nextRoundMsg =>
    if room.state.hostId = some senderId then nextRound room else (room, [])
  | ClientMsg.setLanguage language =>
    match room.state.players.find? (fun q => q.id == senderId) with
    | some _ =>
      ({ room with state := { room.state with players := room.state.players.map fun q =>
          if q.id == senderId then { q with language := language } else q } },
       [Event.stateSync])
    | none => (room, [])
  | ClientMsg.kickPlayer pid =>
    if room.state.hostId = some senderId ∧ room.state.hostId ≠ some pid then
      ({ room with state := { room.state with
          players := room.state.players.filter (fun q => !(q.id == pid)),
          playerOrder := room.state.playerOrder.filter (fun j => !(j == pid)) } },
       [Event.playerLeft pid, Event.stateSync])
    else (room, [])

/-! ## Reconnection tokens and the player-join part of `wss.on('connection')` -/

/-- One entry of the `reconnectTokens` map. -/
structure TokenInfo where
  roomCode : JStr
  name : JStr
  expires : Nat
deriving DecidableEq, Repr

/-- The `reconnectTokens` map, playerId → token. -/
abbrev TokenStore := List (Nat × TokenInfo)

/-- `reconnectTokens.get` (keys are unique, first match). -/
def tokenGet (tokens : TokenStore) (rid : Nat) : Option TokenInfo :=
  (tokens.find? fun kv => kv.1 == rid).map fun kv => kv.2

/-- `reconnectTokens.delete`. -/
def tokenDelete (tokens : TokenStore) (rid : Nat) : TokenStore :=
  tokens.filter fun kv => !(kv.1 == rid)

/-- The token-validation cascade of the connection handler
(lines 504-519): the player id that a presented reconnect token
reattaches, when the token exists, is bound to this room, is unexpired,
and its player record still exists; `none` otherwise. -/
def redeemAttempt (tokens : TokenStore) (s : GameState) (roomCode : JStr)
    (reconnectId : Option Nat) (now : Nat) : Option Nat :=
  match reconnectId with
  | none => none
  | some rid =>
    match tokenGet tokens rid with
    | none => none
    | some tok =>
      if tok.roomCode = roomCode ∧ now < tok.expires then
        match s.players.find? (fun q => q.id == rid) with
        | some _ => some rid
        | none => none
      else none

/-- The player-join part of the connection handler (lines 500-541):
redeem a reconnect token via `redeemAttempt` — reattaching the
connection, refreshing name/language, and consuming the token —
otherwise create a brand-new player record and seat (`freshId` models
the generated id).  Returns the updated state, the updated token store,
the connection's player id, and the `isReconnect` flag. -/
def handlePlayerJoin (tokens : TokenStore) (s : GameState) (roomCode : JStr)
    (reconnectId : Option Nat) (name language : JStr) (now freshId : Nat) :
    GameState × TokenStore × Nat × Bool :=
  match redeemAttempt tokens s roomCode reconnectId now with
  | some rid =>
    let players' := s.players.map fun q =>
      if q.id == rid then
        { q with connected := true,
                 name := if name.isEmpty then q.name else name,
                 language := language }
      else q
    ({ s with players := players' }, tokenDelete tokens rid, rid, true)
  | none =>
    let newPlayer : Player :=
      { id := freshId, name := name, score := 0, roundScores := [], eliminated := false,
        eliminatedRound := none, connected := true, language := language,
        typing := false, submittedAnswer := none }
    ({ s with players := s.players ++ [newPlayer],
              playerOrder := s.playerOrder ++ [freshId] }, tokens, freshId, false)

end Server

/-! ## Fixtures for witnesses and counterexamples -/

namespace Server

/-- Default settings (party mode, no timer, 5 rounds). -/
def exSettings : Settings := ⟨5, false, 30, GameMode.party⟩

/-- Player "a", id 1, connected. -/
def exPlayerA : Player := ⟨1, [97], 0, [], false, none, true, [101, 110], false, none⟩

/-- Player "b", id 2, connected. -/
def exPlayerB : Player := ⟨2, [98], 0, [], false, none, true, [101, 110], false, none⟩

/-- A mid-game room: phase `playing`, players a and b seated in that
order, player 1's turn, turn timer armed. -/
def exArmedRoom : Room :=
  ⟨⟨[81], Phase.playing, some 99, [exPlayerA, exPlayerB], [1, 2], exSettings, none, 1, 0,
    none, [], [], [], none, 1000⟩, true⟩

/-! ## C1 and C10: out-of-turn submissions -/

/-- Out-of-turn `handleAnswerSubmission` reduces to clearing the turn
timer (lines 271-276). -/
theorem handleAnswerSubmission_out_of_turn (room : Room) (p : Nat) (answer : Option JStr)
    (h : getCurrentPlayerId room.state ≠ some p) :
    handleAnswerSubmission room p answer = ({ room with turnTimer := false }, []) := by
  simp only [handleAnswerSubmission]
  rw [if_neg h]

/-- C1: `handleAnswerSubmission` from any player id other than
`getCurrentPlayerId` leaves the game state unchanged — so no player's
cumulative score or round scores change, `answerBoardEntries` is
unchanged, the phase is unchanged — and no event is emitted (in
particular no `SCORE_REVEAL`). -/
theorem C1_out_of_turn_submission_is_noop (room : Room) (p : Nat) (answer : Option JStr)
    (h : getCurrentPlayerId room.state ≠ some p) :
    (handleAnswerSubmission room p answer).1.state = room.state ∧
    (handleAnswerSubmission room p answer).2 = [] := by
  rw [handleAnswerSubmission_out_of_turn room p answer h]
  exact ⟨rfl, rfl⟩

/-- Witness for C1: player 2 submits while it is player 1's turn. -/
theorem C1_witness :
    (handleAnswerSubmission exArmedRoom 2 (some [120])).1.state = exArmedRoom.state ∧
    (handleAnswerSubmission exArmedRoom 2 (some [120])).2 = [] :=
  C1_out_of_turn_submission_is_noop exArmedRoom 2 (some [120]) (by decide)

/-- C10: an out-of-turn `SUBMIT_ANSWER` or `PASS` sets `room.turnTimer`
to null (the timer is cleared before the turn guard) while changing no
other field of the room and emitting nothing. -/
theorem C10_out_of_turn_submission_clears_timer (room : Room) (p : Nat)
    (answer : Option JStr) (h : getCurrentPlayerId room.state ≠ some p) :
    handleAnswerSubmission room p answer = ({ room with turnTimer := false }, []) :=
  handleAnswerSubmission_out_of_turn room p answer h

/-- Witness for C10: an out-of-turn `PASS` disarms the armed timer of a
concrete room. -/
theorem C10_witness :
    handleAnswerSubmission exArmedRoom 2 none = ({ exArmedRoom with turnTimer := false }, []) :=
  C10_out_of_turn_submission_clears_timer exArmedRoom 2 none (by decide)

/-! ## C3: duplicate answers always score 100, not correct -/

/-- C3: once a key is in the round's used-answer set, any later
submission in the round normalizing to that key scores exactly 100, is
marked not correct, and is revealed as such — whatever point value the
key earned when first accepted (no hypothesis constrains it). -/
theorem C3_duplicate_answer_scores_100 (room : Room) (p : Nat) (a : JStr) (player : Player)
    (hcur : getCurrentPlayerId room.state = some p)
    (hfind : room.state.players.find? (fun q => q.id == p) = some player)
    (hne : a.isEmpty = false)
    (hdup : normalizeAnswer a ∈ room.state.usedAnswersThisRound) :
    (handleAnswerSubmission room p (some a)).1.state.answerBoardEntries =
      room.state.answerBoardEntries ++
        [{ playerId := p, playerName := player.name, answer := a, score := 100,
           isCorrect := false }] ∧
    (handleAnswerSubmission room p (some a)).2 =
      [Event.scoreReveal p a 100 false false, Event.stateSync] ∧
    (handleAnswerSubmission room p (some a)).1.state.players =
      room.state.players.map (fun q =>
        if q.id == p then
          { q with typing := false, score := q.score + 100,
                   roundScores := bumpRoundScore q.roundScores room.state.currentRound 100,
                   submittedAnswer := some a }
        else q) := by
  have hres : resolveSubmission room.state (some a) =
      (100, false, a, false, room.state.usedAnswersThisRound, room.state.jackpot) := by
    simp only [resolveSubmission, hne, Bool.false_eq_true, if_false, if_pos hdup]
  simp only [handleAnswerSubmission, hcur, if_pos, hfind, hres]
  exact ⟨trivial, trivial, trivial⟩

/-- A room for the C3 witness: playing, player 1's turn, the key of
"x" already used this round. -/
def exDupRoom : Room :=
  ⟨⟨[81], Phase.playing, some 99, [exPlayerA, exPlayerB], [1, 2], exSettings, none, 1, 0,
    none, [], [[120]], [], none, 1000⟩, false⟩

/-- Witness for C3: resubmitting "x" after its key was used scores 100,
not correct. -/
theorem C3_witness :
    (handleAnswerSubmission exDupRoom 1 (some [120])).1.state.answerBoardEntries =
      exDupRoom.state.answerBoardEntries ++
        [{ playerId := 1, playerName := exPlayerA.name, answer := [120], score := 100,
           isCorrect := false }] ∧
    (handleAnswerSubmission exDupRoom 1 (some [120])).2 =
      [Event.scoreReveal 1 [120] 100 false false, Event.stateSync] ∧
    (handleAnswerSubmission exDupRoom 1 (some [120])).1.state.players =
      exDupRoom.state.players.map (fun q =>
        if q.id == 1 then
          { q with typing := false, score := q.score + 100,
                   roundScores := bumpRoundScore q.roundScores exDupRoom.state.currentRound 100,
                   submittedAnswer := some [120] }
        else q) :=
  C3_duplicate_answer_scores_100 exDupRoom 1 [120] exPlayerA (by decide) (by decide)
    (by decide) (by decide)

/-! ## C2: phase transitions of the inbound operations -/

/-- `find?` by id commutes with mapping an id-preserving update. -/
theorem find?_id_map_update {l : List Player} {p : Nat} {f : Player → Player}
    (hf : ∀ q, (f q).id = q.id) :
    (l.map f).find? (fun q => q.id == p) = (l.find? (fun q => q.id == p)).map f := by
  have hpred : ((fun q : Player => q.id == p) ∘ f) = fun q => q.id == p :=
    funext fun q => by simp [Function.comp, hf q]
  rw [List.find?_map, hpred]

/-- An in-turn submission by a seated player is always accepted: the
phase becomes `revealing` no matter what it was, the turn pointer does
not move, the submitter stays findable, and exactly one board entry is
appended. -/
theorem handle_accepted (room : Room) (p : Nat) (answer : Option JStr) (player : Player)
    (hcur : getCurrentPlayerId room.state = some p)
    (hfind : room.state.players.find? (fun q => q.id == p) = some player) :
    (handleAnswerSubmission room p answer).1.state.phase = Phase.revealing ∧
    getCurrentPlayerId (handleAnswerSubmission room p answer).1.state = some p ∧
    (∃ player', (handleAnswerSubmission room p answer).1.state.players.find?
      (fun q => q.id == p) = some player') ∧
    (handleAnswerSubmission room p answer).1.state.answerBoardEntries.length =
      room.state.answerBoardEntries.length + 1 := by
  simp only [handleAnswerSubmission, hcur, if_pos, hfind]
  refine ⟨trivial, hcur, ?_, by simp⟩
  rw [find?_id_map_update (fun q => by split <;> rfl), hfind]
  exact ⟨_, rfl⟩

/-- A lobby room with one seated connected player (id 1): the game has
not started (`currentRound = 0`, no pack, no category). -/
def exLobbyRoom : Room :=
  ⟨⟨[81], Phase.lobby, some 99, [exPlayerA], [1], exSettings, none, 0, 0,
    none, [], [], [], none, 1000⟩, false⟩

/-- Counterexample to C2: `handleAnswerSubmission` has no phase guard,
so a `SUBMIT_ANSWER` by the seat-0 player moves the phase from `lobby`
straight to `revealing` — an edge outside the specified state machine. -/
theorem C2_counterexample :
    exLobbyRoom.state.phase = Phase.lobby ∧
    (dispatch exLobbyRoom 1 (ClientMsg.submitAnswer (some [120]))).1.state.phase =
      Phase.revealing := by
  constructor
  · rfl
  · decide

/-- C2 (amended): none of the turn-level operations guards on the
phase.  (i) An accepted submission (current turn-holder, seated player)
sets the phase to `revealing` from ANY phase and leaves the turn
pointer in place, so the same player can have a second submission
accepted in the same turn, appending two board entries.  (ii) A host
`NEXT_PLAYER` whose next seat holds a connected non-eliminated player
re-enters `playing` from ANY phase, `gameOver` included.  (iii) A host
`NEXT_ROUND` moves to `gameOver` from ANY phase, `lobby` included,
whenever the round budget is spent or at most one non-eliminated
player remains.  (No hypothesis below mentions `room.state.phase`.) -/
theorem C2_amended_no_phase_guard (room : Room) (p h p₁ : Nat) (player q₁ : Player)
    (a₁ a₂ : Option JStr)
    (hcur : getCurrentPlayerId room.state = some p)
    (hfind : room.state.players.find? (fun q => q.id == p) = some player)
    (hhost : room.state.hostId = some h)
    (hseat : room.state.playerOrder[room.state.currentPlayerIndex + 1]? = some p₁)
    (hfind1 : room.state.players.find? (fun q => q.id == p₁) = some q₁)
    (helim : q₁.eliminated = false)
    (hconn : q₁.connected = true) :
    (handleAnswerSubmission room p a₁).1.state.phase = Phase.revealing ∧
    (handleAnswerSubmission (handleAnswerSubmission room p a₁).1 p a₂).1.state.phase =
      Phase.revealing ∧
    (handleAnswerSubmission (handleAnswerSubmission room p a₁).1 p a₂).1.state.answerBoardEntries.length =
      room.state.answerBoardEntries.length + 2 ∧
    (dispatch room h ClientMsg.nextPlayerMsg).1.state.phase = Phase.playing ∧
    ((room.state.settings.totalRounds ≤ room.state.currentRound ∨
        (room.state.players.filter fun q => !q.eliminated).length ≤ 1) →
      (dispatch room h ClientMsg.nextRoundMsg).1.state.phase = Phase.gameOver) := by
  obtain ⟨h1, h2, ⟨player', hfind'⟩, h4⟩ := handle_accepted room p a₁ player hcur hfind
  obtain ⟨g1, g2, _, g4⟩ := handle_accepted _ p a₂ player' h2 hfind'
  refine ⟨h1, g1, by rw [g4, h4], ?_, ?_⟩
  · have hlt : room.state.currentPlayerIndex + 1 < room.state.playerOrder.length := by
      by_contra hc
      rw [List.getElem?_eq_none (by omega)] at hseat
      cases hseat
    simp only [dispatch, if_pos hhost, nextPlayer, skipEliminated, skipEliminatedGo]
    rw [if_pos hlt, hseat]
    simp only []
    rw [hfind1]
    simp only []
    rw [helim]
    simp only [Bool.false_eq_true, if_false]
    rw [if_neg (by omega)]
    simp only [startPlayerTurn, startPlayerTurnGo]
    simp only [getCurrentPlayerId]
    rw [if_neg (by omega), hseat]
    simp only []
    rw [hfind1]
    simp only []
    rw [helim, hconn]
    simp only [Bool.not_true, Bool.or_false, Bool.false_eq_true, if_false]
  · intro hend
    simp only [dispatch, if_pos hhost, nextRound]
    rw [if_pos hend]
    rfl

/-- Player "a", id 1, eliminated in round 1. -/
def exPlayerAElim : Player := ⟨1, [97], 0, [], true, some 1, true, [101, 110], false, none⟩

/-- A finished room (phase `gameOver`): two connected seated players,
round counter past the budget. -/
def exGameOverRoom : Room :=
  ⟨⟨[81], Phase.gameOver, some 99, [exPlayerA, exPlayerB], [1, 2], exSettings, none, 7, 0,
    none, [], [], [], none, 1000⟩, false⟩

/-- A lobby room where only one of the two seated players is still
non-eliminated. -/
def exLobbyEndRoom : Room :=
  ⟨⟨[81], Phase.lobby, some 99, [exPlayerAElim, exPlayerB], [1, 2], exSettings, none, 0, 0,
    none, [], [], [], none, 1000⟩, false⟩

/-- Witness for the amended C2, at two concrete rooms: from `gameOver`
a submission is accepted (phase `revealing`), `NEXT_PLAYER` re-enters
`playing` and `NEXT_ROUND` re-enters `gameOver`; from `lobby` with one
active player `NEXT_ROUND` jumps straight to `gameOver`. -/
theorem C2_amended_witness :
    (handleAnswerSubmission exGameOverRoom 1 (some [120])).1.state.phase =
      Phase.revealing ∧
    (dispatch exGameOverRoom 99 ClientMsg.nextPlayerMsg).1.state.phase = Phase.playing ∧
    (dispatch exGameOverRoom 99 ClientMsg.nextRoundMsg).1.state.phase = Phase.gameOver ∧
    (dispatch exLobbyEndRoom 99 ClientMsg.nextRoundMsg).1.state.phase = Phase.gameOver := by
  have hg := C2_amended_no_phase_guard exGameOverRoom 1 99 2 exPlayerA exPlayerB
    (some [120]) (some [121]) (by decide) (by decide) rfl (by decide) (by decide) rfl rfl
  have hl := C2_amended_no_phase_guard exLobbyEndRoom 1 99 2 exPlayerAElim exPlayerB
    (some [120]) (some [121]) (by decide) (by decide) rfl (by decide) (by decide) rfl rfl
  exact ⟨hg.1, hg.2.2.2.1, hg.2.2.2.2 (Or.inl (by decide)), hl.2.2.2.2 (Or.inr (by decide))⟩

/-! ## C5: the announced winner has the minimum cumulative score -/

/-- The head of a list sorted ascending by score is a score lower bound
for every element. -/
theorem sorted_head_min {l : List ClientPlayer} {w : ClientPlayer}
    (hs : List.Sorted byScoreAsc l) (hw : l.head? = some w) :
    ∀ x ∈ l, w.score ≤ x.score := by
  cases l with
  | nil => cases hw
  | cons a tl =>
    injection hw with hw'
    subst hw'
    intro x hx
    rcases List.mem_cons.mp hx with rfl | hx'
    · exact le_refl _
    · exact List.rel_of_pairwise_cons hs hx'

/-- C5: with at least one player in the room, `endGame` announces as
winner the head of the ascending-by-score standings over all players
(eliminated included); that winner is (the client view of) a player of
the room and its cumulative score is minimal among all players. -/
theorem C5_endGame_winner_minimal (room : Room) (h : room.state.players ≠ []) :
    ∃ w : ClientPlayer,
      (finalStandings room.state).head? = some w ∧
      (endGame room).2 = [Event.gameEnd (some w) (finalStandings room.state),
        Event.stateSync] ∧
      (endGame room).1.state.phase = Phase.gameOver ∧
      (∃ q ∈ room.state.players, toClientPlayer q = w) ∧
      ∀ q ∈ room.state.players, w.score ≤ (toClientPlayer q).score := by
  have hperm : (finalStandings room.state).Perm (room.state.players.map toClientPlayer) :=
    List.perm_insertionSort _ _
  have hsorted : List.Sorted byScoreAsc (finalStandings room.state) :=
    List.sorted_insertionSort _ _
  have hfs : finalStandings { room.state with phase := Phase.gameOver } =
      finalStandings room.state := rfl
  cases hl : finalStandings room.state with
  | nil =>
    exfalso
    have hmap : room.state.players.map toClientPlayer = [] :=
      List.Perm.eq_nil (hl ▸ hperm.symm)
    exact h (List.map_eq_nil_iff.mp hmap)
  | cons w tl =>
    refine ⟨w, rfl, ?_, rfl, ?_, ?_⟩
    · show [Event.gameEnd (finalStandings { room.state with phase := Phase.gameOver }).head?
        (finalStandings { room.state with phase := Phase.gameOver }), Event.stateSync] = _
      rw [hfs, hl]
      rfl
    · have hw : w ∈ room.state.players.map toClientPlayer :=
        hperm.subset (by rw [hl]; exact List.mem_cons_self _ _)
      rcases List.mem_map.mp hw with ⟨q, hq, hqw⟩
      exact ⟨q, hq, hqw⟩
    · intro q hq
      have hmem : toClientPlayer q ∈ finalStandings room.state :=
        hperm.mem_iff.mpr (List.mem_map_of_mem _ hq)
      exact sorted_head_min hsorted (by rw [hl]; rfl) _ hmem

/-- A finished game: three players with scores 300, 100 and (eliminated)
50. -/
def exEndRoom : Room :=
  ⟨⟨[81], Phase.roundEnd, some 99,
    [⟨1, [97], 300, [300], false, none, true, [101, 110], false, none⟩,
     ⟨2, [98], 100, [100], false, none, true, [101, 110], false, none⟩,
     ⟨3, [99], 50, [50], true, some 1, true, [101, 110], false, none⟩],
    [1, 2, 3], exSettings, none, 2, 3, none, [], [], [], none, 1000⟩, false⟩

/-- Witness for C5 at a concrete three-player room. -/
theorem C5_witness :
    ∃ w : ClientPlayer,
      (finalStandings exEndRoom.state).head? = some w ∧
      (endGame exEndRoom).2 = [Event.gameEnd (some w) (finalStandings exEndRoom.state),
        Event.stateSync] ∧
      (endGame exEndRoom).1.state.phase = Phase.gameOver ∧
      (∃ q ∈ exEndRoom.state.players, toClientPlayer q = w) ∧
      ∀ q ∈ exEndRoom.state.players, w.score ≤ (toClientPlayer q).score :=
  C5_endGame_winner_minimal exEndRoom (by decide)

/-! ## C9: the used set records the submitted key, not the canonical key -/

/-- "Ivory Coast" as code points. -/
def exIvoryCoast : JStr := [73, 118, 111, 114, 121, 32, 67, 111, 97, 115, 116]

/-- An answer whose display text ("Côte d'Ivoire") and alias
("Ivory Coast") normalize to different keys. -/
def exAnsCote : Answer := ⟨exCoteDIvoire, 42, [exIvoryCoast]⟩

/-- A category holding only `exAnsCote`. -/
def exCatCote : Category := ⟨some [99], none, none, none, none, [exAnsCote]⟩

/-- A two-player room playing the `exCatCote` round, player 1 to move. -/
def exAliasRoom : Room :=
  ⟨⟨[81], Phase.playing, some 99, [exPlayerA, exPlayerB], [1, 2], exSettings,
    some ⟨some [116], none, [exCatCote]⟩, 1, 0, some exCatCote, [exCatCote], [], [],
    none, 1000⟩, false⟩

/-- Player 1 submits the display text. -/
def exAliasStep1 : Room :=
  (dispatch exAliasRoom 1 (ClientMsg.submitAnswer (some exCoteDIvoire))).1

/-- The host advances the turn. -/
def exAliasStep2 : Room := (dispatch exAliasStep1 99 ClientMsg.nextPlayerMsg).1

/-- Player 2 submits the alias, in the same round. -/
def exAliasStep3 : Room :=
  (dispatch exAliasStep2 2 (ClientMsg.submitAnswer (some exIvoryCoast))).1

/-- C9: the round's used-answer set records only the normalized key of
the submitted text — after player 1's accepted display-text submission
it holds exactly that key — so player 2's same-round alias submission
for the same `Answer` is also accepted: both submissions are marked
correct, each scores the answer's 42 points, and each submitter's
cumulative score gains 42, although the display text and the alias
normalize to different keys. -/
theorem C9_alias_bypasses_used_set :
    Server.normalizeAnswer exAnsCote.text ≠ Server.normalizeAnswer exIvoryCoast ∧
    exAliasStep1.state.usedAnswersThisRound = [Server.normalizeAnswer exCoteDIvoire] ∧
    exAliasStep3.state.answerBoardEntries.map
      (fun e => (e.playerId, e.answer, e.score, e.isCorrect)) =
      [(1, exCoteDIvoire, 42, true), (2, exCoteDIvoire, 42, true)] ∧
    (exAliasStep3.state.players.map fun q => (q.id, q.score)) = [(1, 42), (2, 42)] :=
  ⟨by decide, by decide, by decide, by decide⟩

/-! ## C6: startGame -/

/-- A single-answer category used by the C6 fixtures. -/
def exCat1 : Category := ⟨some [99], none, none, none, none, [⟨[102], 50, []⟩]⟩

/-- A lobby room whose single seated player (id 1) is disconnected,
with a one-category pack loaded. -/
def exLobbyDiscRoom : Room :=
  ⟨⟨[81], Phase.lobby, some 99,
    [⟨1, [97], 0, [], false, none, false, [101, 110], false, none⟩], [1], exSettings,
    some ⟨some [116], none, [exCat1]⟩, 0, 0, none, [], [], [], none, 1000⟩, false⟩

/-- Counterexample to C6: the host starts the game from the lobby with
one (disconnected) player and a non-empty pack — every hypothesis of
the claim — yet the resulting phase is `roundEnd`, not `playing`, and
the player index is 1, not 0: the turn-start skipping runs past the
disconnected seat and ends the round at once. -/
theorem C6_counterexample :
    exLobbyDiscRoom.state.phase = Phase.lobby ∧
    exLobbyDiscRoom.state.hostId = some 99 ∧
    1 ≤ exLobbyDiscRoom.state.players.length ∧
    (dispatch exLobbyDiscRoom 99 (ClientMsg.startGameMsg [exCat1])).1.state.phase =
      Phase.roundEnd ∧
    (dispatch exLobbyDiscRoom 99 (ClientMsg.startGameMsg [exCat1])).1.state.currentPlayerIndex
      = 1 :=
  ⟨rfl, rfl, by decide, by decide, by decide⟩

/-- C6 (amended): a host `START_GAME` from the lobby with at least one
player and a non-empty pack clamps `totalRounds` to
`min totalRounds #categories`, selects that many distinct categories
without replacement (an initial segment of a permutation of the pack),
resets every player's score, round scores and elimination state, and
sets round 1 and jackpot 1000.  Phase `playing` and player index 0,
however, only survive `startRound`'s turn-skipping when the first
seated player is connected (hypotheses `hseat`/`hfind`/`hconn`); with
every seat disconnected the round ends immediately instead (see the
counterexample). -/
theorem C6_amended_startGame (room : Room) (h : Nat) (pk : Pack) (shuffled : List Category)
    (p0 : Nat) (q0 : Player)
    (hhost : room.state.hostId = some h)
    (hphase : room.state.phase = Phase.lobby)
    (hpack : room.state.pack = some pk)
    (hcats : pk.categories ≠ [])
    (hplayers : 1 ≤ room.state.players.length)
    (hperm : shuffled.Perm pk.categories)
    (hseat : room.state.playerOrder[0]? = some p0)
    (hfind : room.state.players.find? (fun q => q.id == p0) = some q0)
    (hconn : q0.connected = true) :
    (dispatch room h (ClientMsg.startGameMsg shuffled)).1.state.settings.totalRounds =
      min room.state.settings.totalRounds pk.categories.length ∧
    (dispatch room h (ClientMsg.startGameMsg shuffled)).1.state.roundCategories.length =
      min room.state.settings.totalRounds pk.categories.length ∧
    (∃ rest,
      ((dispatch room h (ClientMsg.startGameMsg shuffled)).1.state.roundCategories ++ rest).Perm
        pk.categories) ∧
    (dispatch room h (ClientMsg.startGameMsg shuffled)).1.state.currentRound = 1 ∧
    (dispatch room h (ClientMsg.startGameMsg shuffled)).1.state.jackpot = 1000 ∧
    (dispatch room h (ClientMsg.startGameMsg shuffled)).1.state.currentPlayerIndex = 0 ∧
    (dispatch room h (ClientMsg.startGameMsg shuffled)).1.state.phase = Phase.playing ∧
    ∀ q ∈ (dispatch room h (ClientMsg.startGameMsg shuffled)).1.state.players,
      q.score = 0 ∧ q.roundScores = [] ∧ q.eliminated = false := by
  simp only [dispatch, if_pos (And.intro hhost (And.intro hphase hplayers))]
  have hempty : pk.categories.isEmpty = false := by
    cases hc : pk.categories with
    | nil => exact absurd hc hcats
    | cons a tl => rfl
  simp only [startGame, hpack, hempty, Bool.false_eq_true, if_false]
  simp only [startRound, startPlayerTurn, startPlayerTurnGo]
  have hlen : 0 < room.state.playerOrder.length := by
    cases ho : room.state.playerOrder with
    | nil => rw [ho] at hseat; cases hseat
    | cons a tl => simp [ho]
  simp only [getCurrentPlayerId]
  rw [if_neg (by omega), hseat]
  simp only []
  simp only [List.find?_map, Function.comp_def]
  rw [hfind]
  simp only [Option.map_some']
  rw [hconn]
  simp only [Bool.not_true, Bool.or_false, Bool.false_eq_true, if_false]
  refine ⟨by split <;> omega, ?_, ?_, trivial, trivial, trivial, trivial, ?_⟩
  · rw [List.length_take, hperm.length_eq]
    split <;> omega
  · refine ⟨shuffled.drop (if pk.categories.length < room.state.settings.totalRounds then
      pk.categories.length else room.state.settings.totalRounds), ?_⟩
    rw [List.take_append_drop]
    exact hperm
  · intro q hq
    simp only [List.mem_map] at hq
    obtain ⟨q3, ⟨q2, ⟨q1, hq1, rfl⟩, rfl⟩, rfl⟩ := hq
    refine ⟨?_, ?_, ?_⟩ <;> (first | rfl | (split <;> rfl))

/-- A second single-answer category for the C6 witness pack. -/
def exCat2 : Category := ⟨some [100], none, none, none, none, [⟨[103], 10, []⟩]⟩

/-- A two-category pack. -/
def exPack2 : Pack := ⟨some [116], none, [exCat1, exCat2]⟩

/-- A lobby room with one connected seated player and `exPack2`
loaded. -/
def exLobbyConnRoom : Room :=
  ⟨⟨[81], Phase.lobby, some 99, [exPlayerA], [1], exSettings, some exPack2, 0, 0,
    none, [], [], [], none, 1000⟩, false⟩

/-- Witness for the amended C6: the host starts the game with the
categories shuffled into reverse order; the room enters round 1 in
phase `playing` at seat 0. -/
theorem C6_amended_witness :
    (dispatch exLobbyConnRoom 99 (ClientMsg.startGameMsg [exCat2, exCat1])).1.state.phase =
      Phase.playing ∧
    (dispatch exLobbyConnRoom 99
      (ClientMsg.startGameMsg [exCat2, exCat1])).1.state.currentPlayerIndex = 0 ∧
    (dispatch exLobbyConnRoom 99
      (ClientMsg.startGameMsg [exCat2, exCat1])).1.state.currentRound = 1 := by
  have hh := C6_amended_startGame exLobbyConnRoom 99 exPack2 [exCat2, exCat1] 1 exPlayerA
    rfl rfl rfl (by decide) (by decide) (by decide) (by decide) (by decide) rfl
  exact ⟨hh.2.2.2.2.2.2.1, hh.2.2.2.2.2.1, hh.2.2.2.1⟩

/-! ## C7: reconnect tokens -/

/-- The token presented as `reconnectId` fails validation: unknown,
bound to a different room code, or expired (the negation of
`token && token.roomCode === roomCode && token.expires > Date.now()`). -/
def tokenInvalid (tokens : TokenStore) (rid : Nat) (roomCode : JStr) (now : Nat) : Prop :=
  match tokenGet tokens rid with
  | none => True
  | some tok => tok.roomCode ≠ roomCode ∨ tok.expires ≤ now

/-- C7: an expired, room-mismatched or unknown reconnect token behaves
exactly like no token at all (a fresh player record and seat are
created by the shared fresh-player path), while a valid unexpired token
bound to this room whose player record still exists reattaches the
connection to that record — updating only `connected` (to true), `name`
and `language`, hence preserving score, seat position (both `players`
order and `playerOrder`) and elimination state — and deletes the token,
so a second redemption finds none. -/
theorem C7_reconnect_token_semantics (tokens : TokenStore) (s : GameState) (roomCode : JStr)
    (rid : Nat) (name language : JStr) (now freshId : Nat) :
    (tokenInvalid tokens rid roomCode now →
      handlePlayerJoin tokens s roomCode (some rid) name language now freshId =
        handlePlayerJoin tokens s roomCode none name language now freshId) ∧
    (∀ tok q0, tokenGet tokens rid = some tok → tok.roomCode = roomCode →
      now < tok.expires → s.players.find? (fun q => q.id == rid) = some q0 →
      handlePlayerJoin tokens s roomCode (some rid) name language now freshId =
        ({ s with players := s.players.map fun q =>
            if q.id == rid then
              { q with connected := true,
                       name := if name.isEmpty then q.name else name,
                       language := language }
            else q },
         tokenDelete tokens rid, rid, true) ∧
      tokenGet (tokenDelete tokens rid) rid = none) := by
  constructor
  · intro hinv
    have hattempt : redeemAttempt tokens s roomCode (some rid) now = none := by
      simp only [redeemAttempt]
      cases htok : tokenGet tokens rid with
      | none => rfl
      | some tok =>
        unfold tokenInvalid at hinv
        rw [htok] at hinv
        show (if tok.roomCode = roomCode ∧ now < tok.expires then
            (match s.players.find? (fun q => q.id == rid) with
             | some _ => some rid
             | none => none) else none) = none
        rw [if_neg (by
          rintro ⟨hrc, hexp⟩
          rcases hinv with hbad | hbad
          · exact hbad hrc
          · omega)]
    simp only [handlePlayerJoin]
    rw [hattempt]
    rfl
  · intro tok q0 htok hrc hexp hfind
    have hattempt : redeemAttempt tokens s roomCode (some rid) now = some rid := by
      simp only [redeemAttempt, htok]
      rw [if_pos (And.intro hrc hexp), hfind]
    constructor
    · simp only [handlePlayerJoin]
      rw [hattempt]
    · have hnone : List.find? (fun kv => kv.1 == rid) (tokenDelete tokens rid) = none := by
        apply List.find?_eq_none.mpr
        intro kv hkv
        have hk := (List.mem_filter.mp hkv).2
        simp only [Bool.not_eq_true'] at hk
        simp [hk]
      simp [tokenGet, hnone]

/-- A room state with one disconnected, eliminated player (id 5,
score 77) awaiting reconnection. -/
def exJoinState : GameState :=
  ⟨[81], Phase.playing, some 99,
   [⟨5, [111], 77, [77], true, some 1, false, [101, 110], false, none⟩], [5], exSettings,
   none, 1, 0, none, [], [], [], none, 1000⟩

/-- A token for player 5 in room "Q" that expired at time 50. -/
def exTokensExpired : TokenStore := [(5, ⟨[81], [111], 50⟩)]

/-- A token for player 5 in room "Q" that lives until time 200. -/
def exTokensValid : TokenStore := [(5, ⟨[81], [111], 200⟩)]

/-- Witness for C7 at time 100: the expired token joins exactly like no
token; the live token reattaches player 5 and is consumed. -/
theorem C7_witness :
    (handlePlayerJoin exTokensExpired exJoinState [81] (some 5) [110] [112, 108] 100 7 =
      handlePlayerJoin exTokensExpired exJoinState [81] none [110] [112, 108] 100 7) ∧
    (handlePlayerJoin exTokensValid exJoinState [81] (some 5) [110] [112, 108] 100 7 =
      ({ exJoinState with players := exJoinState.players.map fun q =>
          if q.id == 5 then
            { q with connected := true,
                     name := if ([110] : JStr).isEmpty then q.name else [110],
                     language := [112, 108] }
          else q },
       tokenDelete exTokensValid 5, 5, true) ∧
     tokenGet (tokenDelete exTokensValid 5) 5 = none) := by
  refine ⟨?_, ?_⟩
  · exact (C7_reconnect_token_semantics exTokensExpired exJoinState [81] 5 [110]
      [112, 108] 100 7).1 (Or.inr (by decide))
  · exact (C7_reconnect_token_semantics exTokensValid exJoinState [81] 5 [110]
      [112, 108] 100 7).2 ⟨[81], [111], 200⟩
      ⟨5, [111], 77, [77], true, some 1, false, [101, 110], false, none⟩
      (by decide) rfl (by decide) (by decide)

/-! ## C8: the STATE_SYNC snapshot is independent of answer data -/

/-- Two categories agreeing on everything except their answer lists
(and the point values inside them). -/
def catAgree (c₁ c₂ : Category) : Prop :=
  c₁.prompt = c₂.prompt ∧ c₁.question = c₂.question ∧ c₁.name = c₂.name ∧
  c₁.ctype = c₂.ctype ∧ c₁.translations = c₂.translations

/-- Two packs agreeing except in their categories' answer lists. -/
def packAgree (p₁ p₂ : Pack) : Prop :=
  p₁.title = p₂.title ∧ p₁.name = p₂.name ∧
  List.Forall₂ catAgree p₁.categories p₂.categories

/-- Lift a relation to `Option`: both absent, or both present and
related. -/
def optAgree {α : Type} (R : α → α → Prop) : Option α → Option α → Prop
  | none, none => True
  | some a, some b => R a b
  | _, _ => False

/-- Two room states equal except in the answer lists of the pack's
categories, of the selected round categories, and of the current
category. -/
def stateAgreeExceptAnswers (s₁ s₂ : GameState) : Prop :=
  s₁.code = s₂.code ∧ s₁.phase = s₂.phase ∧ s₁.hostId = s₂.hostId ∧
  s₁.players = s₂.players ∧ s₁.playerOrder = s₂.playerOrder ∧ s₁.settings = s₂.settings ∧
  optAgree packAgree s₁.pack s₂.pack ∧
  s₁.currentRound = s₂.currentRound ∧ s₁.currentPlayerIndex = s₂.currentPlayerIndex ∧
  optAgree catAgree s₁.currentCategory s₂.currentCategory ∧
  List.Forall₂ catAgree s₁.roundCategories s₂.roundCategories ∧
  s₁.usedAnswersThisRound = s₂.usedAnswersThisRound ∧
  s₁.answerBoardEntries = s₂.answerBoardEntries ∧
  s₁.timerRemaining = s₂.timerRemaining ∧ s₁.jackpot = s₂.jackpot

theorem packTitle_agree {o₁ o₂ : Option Pack} (h : optAgree packAgree o₁ o₂) :
    packTitleOf o₁ = packTitleOf o₂ := by
  unfold packTitleOf
  cases o₁ with
  | none =>
    cases o₂ with
    | none => rfl
    | some p₂ => exact False.elim h
  | some p₁ =>
    cases o₂ with
    | none => exact False.elim h
    | some p₂ =>
      obtain ⟨h1, h2, _⟩ := h
      show jsOrStr p₁.title p₁.name = jsOrStr p₂.title p₂.name
      rw [h1, h2]

theorem clientCategory_agree {o₁ o₂ : Option Category} (h : optAgree catAgree o₁ o₂) :
    o₁.map toClientCategory = o₂.map toClientCategory := by
  cases o₁ with
  | none =>
    cases o₂ with
    | none => rfl
    | some c₂ => exact False.elim h
  | some c₁ =>
    cases o₂ with
    | none => exact False.elim h
    | some c₂ =>
      obtain ⟨h1, h2, h3, h4, h5⟩ := h
      simp only [Option.map_some']
      unfold toClientCategory
      rw [h1, h2, h3, h4, h5]

/-- C8: `getClientState` never exposes the category answer set — for
any two room states that agree except in the answers arrays of the
pack's (and round's, and current) categories, the snapshot is
identical: it depends only on prompt text, category metadata, and
already-revealed board entries. -/
theorem C8_client_state_independent_of_answers (s₁ s₂ : GameState)
    (h : stateAgreeExceptAnswers s₁ s₂) : getClientState s₁ = getClientState s₂ := by
  obtain ⟨hcode, hphase, hhost, hplayers, horder, hsettings, hpack, hround, hidx, hcat,
    hrcats, hused, hboard, htimer, hjackpot⟩ := h
  unfold getClientState
  simp only [ClientState.mk.injEq]
  refine ⟨hcode, hphase, by rw [hplayers], horder, hsettings, packTitle_agree hpack,
    hround, by rw [hsettings], hidx, ?_, clientCategory_agree hcat, hboard, htimer,
    hjackpot⟩
  unfold getCurrentPlayerId
  rw [horder, hidx]

/-- The alias-room state with every answer list emptied. -/
def exScrubbedState : GameState :=
  ⟨[81], Phase.playing, some 99, [exPlayerA, exPlayerB], [1, 2], exSettings,
    some ⟨some [116], none, [⟨some [99], none, none, none, none, []⟩]⟩, 1, 0,
    some ⟨some [99], none, none, none, none, []⟩, [⟨some [99], none, none, none, none, []⟩],
    [], [], none, 1000⟩

/-- Witness for C8: the snapshot of the alias room equals the snapshot
of the same room with all answer lists removed. -/
theorem C8_witness : getClientState exAliasRoom.state = getClientState exScrubbedState :=
  C8_client_state_independent_of_answers exAliasRoom.state exScrubbedState
    ⟨rfl, rfl, rfl, rfl, rfl, rfl, ⟨rfl, rfl, List.Forall₂.cons ⟨rfl, rfl, rfl, rfl, rfl⟩
      List.Forall₂.nil⟩, rfl, rfl, ⟨rfl, rfl, rfl, rfl, rfl⟩,
      List.Forall₂.cons ⟨rfl, rfl, rfl, rfl, rfl⟩ List.Forall₂.nil, rfl, rfl, rfl, rfl⟩

end Server

/-! ## C4: normalization idempotence and variant equivalence -/

/-- Counterexample to C4: under the server's `normalizeAnswer` the three
spec examples do NOT all normalize to one key — "Côte d'Ivoire" gives
"cote divoire" (the apostrophe is deleted, not spaced) while
"cote d ivoire" keeps its inner space, and "COTE-D'IVOIRE" gives
"cotedivoire". -/
theorem C4_counterexample :
    Server.normalizeAnswer exCoteDIvoire =
      [99, 111, 116, 101, 32, 100, 105, 118, 111, 105, 114, 101] ∧
    Server.normalizeAnswer exCoteSpaced =
      [99, 111, 116, 101, 32, 100, 32, 105, 118, 111, 105, 114, 101] ∧
    Server.normalizeAnswer exCoteUpper =
      [99, 111, 116, 101, 100, 105, 118, 111, 105, 114, 101] ∧
    (Server.normalizeAnswer exCoteDIvoire == Server.normalizeAnswer exCoteSpaced) = false ∧
    (Server.normalizeAnswer exCoteSpaced == Server.normalizeAnswer exCoteUpper) = false := by
  decide

/-- C4 (amended): both `normalizeAnswer` variants are idempotent on
every string; the case/diacritic/punctuation variants "Côte d'Ivoire",
"cote d ivoire" and "COTE-D'IVOIRE" produce equal keys under the
client (`game.js`) variant, which replaces punctuation by a space; but
under the server variant, which deletes punctuation, the three produce
three pairwise distinct keys. -/
theorem C4_amended_normalization :
    (∀ l : JStr, Server.normalizeAnswer (Server.normalizeAnswer l) =
      Server.normalizeAnswer l) ∧
    (∀ l : JStr, GameJs.normalizeAnswer (GameJs.normalizeAnswer l) =
      GameJs.normalizeAnswer l) ∧
    GameJs.normalizeAnswer exCoteDIvoire = GameJs.normalizeAnswer exCoteSpaced ∧
    GameJs.normalizeAnswer exCoteSpaced = GameJs.normalizeAnswer exCoteUpper ∧
    (Server.normalizeAnswer exCoteDIvoire == Server.normalizeAnswer exCoteSpaced) = false ∧
    (Server.normalizeAnswer exCoteSpaced == Server.normalizeAnswer exCoteUpper) = false ∧
    (Server.normalizeAnswer exCoteDIvoire == Server.normalizeAnswer exCoteUpper) = false :=
  ⟨Server.serverNormalize_idem, GameJs.gameNormalize_idem, by decide, by decide,
   by decide, by decide, by decide⟩
